import Mathlib

/-!
Verification of the Ansible provisioner plugin
(src/aminatorplugins/provisioner/ansible.py).

The filesystem is modelled as an association list from absolute paths to
nodes.  A path is the list of its components, so the host path
/mnt/tmp/vault_password is the list [mnt, tmp, vault_password]; Python
string concatenation of a mount point with an absolute sub-path
(mountpoint + dest, os.path.join(mountpoint, a, b)) becomes list append.
Fallible filesystem calls return Except: an error value models the Python
exception escaping the call.
-/

namespace Ansible

/-- A filesystem path, as its list of components from the root. -/
abbrev FPath := List String

/-- A filesystem node: a directory or a file with its byte content. -/
inductive FNode where
  | dir : FNode
  | file : String → FNode
deriving DecidableEq, Repr

/-- The filesystem: an association list from paths to nodes. -/
abbrev FS := List (FPath × FNode)

/-- Errors of the modelled Python filesystem calls (escaping exceptions). -/
inductive PyErr where
  | notFound
  | notADir
  | isADir
  | fileExists
deriving DecidableEq, Repr

/-- Componentwise path containment: pathUnder p q is true when q lies in
the subtree rooted at p (q equal to p included). -/
def pathUnder : FPath → FPath → Bool
  | [], _ => true
  | _ :: _, [] => false
  | a :: p, b :: q => a == b && pathUnder p q

/-- First node stored at a path, if any. -/
def FS.lookup : FS → FPath → Option FNode
  | [], _ => none
  | e :: fs, p => if e.1 = p then some e.2 else FS.lookup fs p

/-- os.path.isdir of the model. -/
def FS.isdir (fs : FS) (p : FPath) : Bool :=
  FS.lookup fs p == some FNode.dir

/-- All entries of the subtree rooted at p. -/
def subtree (fs : FS) (p : FPath) : FS :=
  fs.filter (fun e => pathUnder p e.1)

/-- Store node n at path p, replacing any previous entry for p. -/
def FS.set (fs : FS) (p : FPath) (n : FNode) : FS :=
  fs.filter (fun e => !(e.1 == p)) ++ [(p, n)]

/-- shutil.rmtree: removes the whole subtree at p; raises if p is missing
(FileNotFoundError) or is a plain file (NotADirectoryError). -/
def rmtree (p : FPath) (fs : FS) : Except PyErr FS :=
  match FS.lookup fs p with
  | some FNode.dir => .ok (fs.filter (fun e => !(pathUnder p e.1)))
  | some (FNode.file _) => .error .notADir
  | none => .error .notFound

/-- os.remove: removes the file at p; raises if p is missing or a directory. -/
def osRemove (p : FPath) (fs : FS) : Except PyErr FS :=
  match FS.lookup fs p with
  | some (FNode.file _) => .ok (fs.filter (fun e => !(e.1 == p)))
  | some FNode.dir => .error .isADir
  | none => .error .notFound

/-- shutil.copytree src dst: lists src first (raising if src is missing or
not a directory), then creates dst (raising FileExistsError if dst already
exists), then copies the whole tree entry by entry. -/
def copytree (src dst : FPath) (fs : FS) : Except PyErr FS :=
  match FS.lookup fs src with
  | none => .error .notFound
  | some (FNode.file _) => .error .notADir
  | some FNode.dir =>
    if (FS.lookup fs dst).isSome then .error .fileExists
    else .ok (fs ++ (subtree fs src).map (fun e => (dst ++ e.1.drop src.length, e.2)))

/-- The parent directory of a path. -/
def parent (p : FPath) : FPath := p.dropLast

/-- open(p, w): requires the parent directory to exist; creates or
truncates the file at p (raising IsADirectoryError if p is a directory). -/
def openW (p : FPath) (fs : FS) : Except PyErr FS :=
  if FS.isdir fs (parent p) then
    match FS.lookup fs p with
    | some FNode.dir => .error .isADir
    | _ => .ok (FS.set fs p (FNode.file ""))
  else .error .notFound

/-- The non-empty prefixes of a path, shortest first. -/
def prefixes (p : FPath) : List FPath :=
  (List.range p.length).map (fun i => p.take (i + 1))

/-- os.makedirs p: raises FileExistsError if p already exists, raises if a
proper prefix of p exists as a plain file, and otherwise creates every
missing prefix of p as a directory. -/
def makedirs (p : FPath) (fs : FS) : Except PyErr FS :=
  if (FS.lookup fs p).isSome then .error .fileExists
  else if (prefixes p).any (fun q =>
      match FS.lookup fs q with
      | some (FNode.file _) => true
      | _ => false) then .error .notADir
  else .ok (fs ++ ((prefixes p).filter (fun q => !(FS.lookup fs q).isSome)).map
      (fun q => (q, FNode.dir)))

/-- The plugin configuration options read through config.get, with the
field names of the source. -/
structure Config where
  playbooks_path_source : FPath
  playbooks_path_dest : FPath
  vault_password : Bool
  keep_playbooks : Bool
  extravars : String
  appversion : String
  inventory_file_path : Option FPath
  inventory_file : String
  inventory_file_content : String
deriving DecidableEq, Repr

/-- Model of _copy_playbooks: stages the playbooks into the chroot and, when a vault
password is requested, writes the VAULT_PWD environment value to
mountpoint/tmp/vault_password.  The result carries the returned boolean,
the filesystem, and the list of file handles opened but never closed.
Faithful details kept from the source: the isdir check on the source path
only logs log.critical and does not return; the destination check returns
False only when the destination is a directory; the secret file is opened
for writing before the environment lookup, and a missing VAULT_PWD raises
KeyError past f.close, which is caught and only logged, returning True. -/
def copyPlaybooks (cfg : Config) (mount : FPath) (env : Option String) (fs : FS) :
    Except PyErr (Bool × FS × List FPath) :=
  let dst := mount ++ cfg.playbooks_path_dest
  if FS.isdir fs dst then .ok (false, fs, [])
  else
    match copytree cfg.playbooks_path_source dst fs with
    | .error e => .error e
    | .ok fs1 =>
      if cfg.vault_password then
        match openW (mount ++ ["tmp", "vault_password"]) fs1 with
        | .error e => .error e
        | .ok fs2 =>
          match env with
          | some pwd =>
            .ok (true, FS.set fs2 (mount ++ ["tmp", "vault_password"]) (FNode.file pwd), [])
          | none => .ok (true, fs2, [mount ++ ["tmp", "vault_password"]])
      else .ok (true, fs1, [])

/-- Model of _ansible_cleanup: rmtree of the raw playbooks_path_dest option (the
source does not re-apply the mount prefix here) unless keep_playbooks,
then os.remove of the raw host path /tmp/vault_password when a vault
password was requested. -/
def ansibleCleanup (cfg : Config) (fs : FS) : Except PyErr FS :=
  match (if cfg.keep_playbooks then Except.ok fs
         else rmtree cfg.playbooks_path_dest fs) with
  | .error e => .error e
  | .ok fs1 =>
    if cfg.vault_password then osRemove ["tmp", "vault_password"] fs1
    else .ok fs1

/-- A single quote character, as a string. -/
def squote : String := String.singleton (Char.ofNat 39)

/-- run_ansible_playbook: builds the command line handed to the command
runner, exactly as the format call of the source produces it. -/
def run_ansible_playbook (inventory extra_vars playbook_dir playbook : String)
    (vault_password : Bool) : String :=
  let path := playbook_dir ++ "/" ++ playbook
  let cmd := "ansible-playbook -c local -i " ++ inventory ++ " -e " ++ squote ++
    "ami=True " ++ extra_vars ++ squote ++ " " ++ path
  if vault_password then cmd ++ " --vault-password-file /tmp/vault_password" else cmd

/-- The command-line template as the specification words it: tool, local
connection, inventory, marker plus extra vars inside single quotes, the
playbook path, and an optional vault-password-file option. -/
def specCommandLine (inventory extra_vars playbook_dir playbook : String)
    (vault : Bool) : String :=
  "ansible-playbook -c local -i " ++ inventory ++ " -e " ++ squote ++ "ami=True " ++
    extra_vars ++ squote ++ " " ++ (playbook_dir ++ "/" ++ playbook) ++
    (if vault then " --vault-password-file /tmp/vault_password" else "")

/-- Model of _write_local_inventory: computes the inventory path from the
inventory_file_path option (default /etc/ansible) joined with the
inventory_file option, assigns it to context.package.inventory before any
filesystem call, then creates the directory when it is not one already,
opens the file for writing and writes inventory_file_content, and returns
True.  The first component of the result is the value assigned to
context.package.inventory; the second is the filesystem outcome together
with the returned boolean. -/
def writeLocalInventory (cfg : Config) (fs : FS) : FPath × Except PyErr (FS × Bool) :=
  let path := cfg.inventory_file_path.getD ["etc", "ansible"]
  let filename := path ++ [cfg.inventory_file]
  let r : Except PyErr (FS × Bool) :=
    match (if FS.isdir fs path then Except.ok fs else makedirs path fs) with
    | .error e => .error e
    | .ok fs1 =>
      match openW filename fs1 with
      | .error e => .error e
      | .ok fs2 => .ok (FS.set fs2 filename (FNode.file cfg.inventory_file_content), true)
  (filename, r)

/-- The metadata dictionary stored on context.package.attributes. -/
structure Metadata where
  name : String
  version : String
  release : String
  extra_vars : String
deriving DecidableEq, Repr

/-- Observable ordering events inside _store_package_metadata. -/
inductive Event where
  | cleanedUp
  | recorded
deriving DecidableEq, Repr

/-- Model of _store_package_metadata: first calls _ansible_cleanup, then builds the
metadata dictionary from the package argument and the options and stores
it.  The event list records the order in which the two effects happen; a
cleanup exception escapes before any metadata is stored. -/
def storePackageMetadata (cfg : Config) (packageArg : String) (fs : FS) :
    Except PyErr (FS × Metadata × List Event) :=
  match ansibleCleanup cfg fs with
  | .error e => .error e
  | .ok fs1 =>
    .ok (fs1,
      { name := packageArg, version := cfg.appversion, release := "",
        extra_vars := cfg.extravars },
      [Event.cleanedUp, Event.recorded])

/-- True when the recorded event happens strictly before the cleanup event
in a trace. -/
def recordedBeforeCleanup : List Event → Bool
  | [] => false
  | Event.recorded :: t => t.contains Event.cleanedUp
  | Event.cleanedUp :: _ => false

deriving instance DecidableEq for Except

/-! Concrete configurations and filesystems used to evaluate the model. -/

/-- A baseline configuration: playbooks staged from /artifacts/playbooks to
/srv/prov under the mount, no vault password, playbooks not kept. -/
def baseCfg : Config :=
  { playbooks_path_source := ["artifacts", "playbooks"]
    playbooks_path_dest := ["srv", "prov"]
    vault_password := false
    keep_playbooks := false
    extravars := ""
    appversion := ""
    inventory_file_path := none
    inventory_file := "hosts"
    inventory_file_content := "localhost" }

/-- C1 run: vault requested, playbooks kept so that cleanup reaches the
secret-removal step. -/
def c1cfg : Config := { baseCfg with vault_password := true, keep_playbooks := true }

/-- C1 run: host /tmp holds a stale vault_password file, the mount /mnt has
a tmp directory, and the playbook source exists. -/
def c1fs : FS :=
  [(["tmp"], FNode.dir), (["tmp", "vault_password"], FNode.file "stale"),
   (["mnt"], FNode.dir), (["mnt", "tmp"], FNode.dir),
   (["artifacts"], FNode.dir), (["artifacts", "playbooks"], FNode.dir),
   (["artifacts", "playbooks", "site.yml"], FNode.file "- hosts")]

/-- C2 run: host /srv/prov happens to exist, so cleanup succeeds. -/
def c2fs : FS :=
  [(["srv"], FNode.dir), (["srv", "prov"], FNode.dir),
   (["mnt"], FNode.dir), (["mnt", "tmp"], FNode.dir),
   (["artifacts"], FNode.dir), (["artifacts", "playbooks"], FNode.dir),
   (["artifacts", "playbooks", "site.yml"], FNode.file "- hosts")]

/-- C3 run: the staging destination /mnt/srv/prov already exists. -/
def c3fs : FS :=
  [(["mnt"], FNode.dir), (["mnt", "srv"], FNode.dir), (["mnt", "srv", "prov"], FNode.dir)]

/-- C5 run: playbooks kept so that cleanup succeeds on an empty filesystem. -/
def c5cfg : Config := { baseCfg with keep_playbooks := true }

/-- C6 run: the playbook source directory is missing. -/
def c6fs : FS := [(["mnt"], FNode.dir)]

/-- C7 run: the destination exists on the host, so the first cleanup
succeeds and leaves it gone. -/
def c7fs : FS := [(["srv"], FNode.dir), (["srv", "prov"], FNode.dir)]

/-- The filesystem after the first C7 cleanup. -/
def c7fs1 : FS := [(["srv"], FNode.dir)]

/-- C8 run: a small source tree at /a and a mount at /m, playbooks kept. -/
def c8cfg : Config :=
  { baseCfg with
    keep_playbooks := true
    playbooks_path_source := ["a"]
    playbooks_path_dest := ["d"] }

/-- C8 run: initial filesystem. -/
def c8fs : FS := [(["a"], FNode.dir), (["a", "x"], FNode.file "1"), (["m"], FNode.dir)]

/-- C8 run: the filesystem after staging. -/
def c8fs1 : FS :=
  [(["a"], FNode.dir), (["a", "x"], FNode.file "1"), (["m"], FNode.dir),
   (["m", "d"], FNode.dir), (["m", "d", "x"], FNode.file "1")]

/-- C9 run: vault requested. -/
def c9cfg : Config :=
  { baseCfg with
    vault_password := true
    playbooks_path_source := ["a"]
    playbooks_path_dest := ["d"] }

/-- C9 run: initial filesystem. -/
def c9fs : FS :=
  [(["m"], FNode.dir), (["m", "tmp"], FNode.dir), (["a"], FNode.dir),
   (["a", "s.yml"], FNode.file "c")]

/-- C9 run: the filesystem after staging with VAULT_PWD absent; the secret
file exists and is empty. -/
def c9fs1 : FS :=
  [(["m"], FNode.dir), (["m", "tmp"], FNode.dir), (["a"], FNode.dir),
   (["a", "s.yml"], FNode.file "c"), (["m", "d"], FNode.dir),
   (["m", "d", "s.yml"], FNode.file "c"),
   (["m", "tmp", "vault_password"], FNode.file "")]

/-- C10 run: /etc exists as a plain file, so makedirs fails after the
inventory path has already been assigned. -/
def c10fs : FS := [(["etc"], FNode.file "bad")]

/-! Basic lemmas about the filesystem model. -/

theorem pathUnder_refl (p : FPath) : pathUnder p p = true := by
  induction p with
  | nil => rfl
  | cons a p ih => simp [pathUnder, ih]

theorem pathUnder_append (p t : FPath) : pathUnder p (p ++ t) = true := by
  induction p with
  | nil => rfl
  | cons a p ih => simp [pathUnder, ih]

theorem pathUnder_iff (p q : FPath) : pathUnder p q = true ↔ ∃ t, q = p ++ t := by
  induction p generalizing q with
  | nil =>
    constructor
    · intro _; exact ⟨q, rfl⟩
    · intro _; rfl
  | cons a p ih =>
    cases q with
    | nil =>
      constructor
      · intro h; exact absurd h (by simp [pathUnder])
      · rintro ⟨t, ht⟩; exact absurd ht (by simp)
    | cons b q =>
      constructor
      · intro h
        rw [pathUnder, Bool.and_eq_true, beq_iff_eq] at h
        obtain ⟨t, ht⟩ := (ih q).mp h.2
        exact ⟨t, by rw [h.1, ht]; rfl⟩
      · rintro ⟨t, ht⟩
        rw [List.cons_append, List.cons.injEq] at ht
        rw [pathUnder, Bool.and_eq_true, beq_iff_eq]
        exact ⟨ht.1.symm, (ih q).mpr ⟨t, ht.2⟩⟩

theorem FS.lookup_append_some {a : FS} (b : FS) {p : FPath} {n : FNode}
    (h : FS.lookup a p = some n) : FS.lookup (a ++ b) p = some n := by
  induction a with
  | nil => simp [FS.lookup] at h
  | cons e a ih =>
    by_cases he : e.1 = p
    · rw [List.cons_append, FS.lookup, if_pos he]
      rw [FS.lookup, if_pos he] at h
      exact h
    · rw [List.cons_append, FS.lookup, if_neg he]
      rw [FS.lookup, if_neg he] at h
      exact ih h

theorem FS.lookup_append_none {a : FS} (b : FS) {p : FPath}
    (h : FS.lookup a p = none) : FS.lookup (a ++ b) p = FS.lookup b p := by
  induction a with
  | nil => rfl
  | cons e a ih =>
    by_cases he : e.1 = p
    · rw [FS.lookup, if_pos he] at h; exact absurd h (by simp)
    · rw [List.cons_append, FS.lookup, if_neg he]
      rw [FS.lookup, if_neg he] at h
      exact ih h

theorem FS.lookup_filter_none (fs : FS) (f : FPath × FNode → Bool) (p : FPath)
    (h : ∀ n, f (p, n) = false) : FS.lookup (fs.filter f) p = none := by
  induction fs with
  | nil => rfl
  | cons e fs ih =>
    by_cases hf : f e = true
    · have hstep : List.filter f (e :: fs) = e :: List.filter f fs := by
        simp [List.filter_cons, hf]
      rw [hstep, FS.lookup]
      have hep : ¬(e.1 = p) := by
        intro hc
        have hfe : f (e.1, e.2) = false := by rw [hc]; exact h e.2
        rw [Prod.mk.eta] at hfe
        rw [hfe] at hf
        exact absurd hf (by simp)
      rw [if_neg hep]
      exact ih
    · have hstep : List.filter f (e :: fs) = List.filter f fs := by
        simp only [List.filter_cons, Bool.not_eq_true] at *
        rw [hf]; rfl
      rw [hstep]
      exact ih

theorem FS.lookup_filter_keyNe (fs : FS) (p q : FPath) (hpq : ¬(q = p)) :
    FS.lookup (fs.filter (fun e => !(e.1 == p))) q = FS.lookup fs q := by
  induction fs with
  | nil => rfl
  | cons e fs ih =>
    by_cases he : e.1 = p
    · have hstep : List.filter (fun (e : FPath × FNode) => !(e.1 == p)) (e :: fs) =
          List.filter (fun (e : FPath × FNode) => !(e.1 == p)) fs := by
        simp [List.filter_cons, he]
      have heq : ¬(e.1 = q) := by rw [he]; exact fun hc => hpq hc.symm
      rw [hstep, FS.lookup, if_neg heq]
      exact ih
    · have hstep : List.filter (fun (e : FPath × FNode) => !(e.1 == p)) (e :: fs) =
          e :: List.filter (fun (e : FPath × FNode) => !(e.1 == p)) fs := by
        simp [List.filter_cons, he]
      rw [hstep, FS.lookup, FS.lookup]
      by_cases heq : e.1 = q
      · rw [if_pos heq, if_pos heq]
      · rw [if_neg heq, if_neg heq]; exact ih

theorem FS.lookup_set_self (fs : FS) (p : FPath) (n : FNode) :
    FS.lookup (FS.set fs p n) p = some n := by
  rw [FS.set]
  rw [FS.lookup_append_none [(p, n)] (FS.lookup_filter_none fs _ p (fun m => by simp))]
  simp [FS.lookup]

theorem FS.lookup_set_ne (fs : FS) (p q : FPath) (n : FNode) (hpq : ¬(q = p)) :
    FS.lookup (FS.set fs p n) q = FS.lookup fs q := by
  rw [FS.set]
  cases hl : FS.lookup fs q with
  | some m =>
    exact FS.lookup_append_some [(p, n)]
      ((FS.lookup_filter_keyNe fs p q hpq).trans hl)
  | none =>
    rw [FS.lookup_append_none [(p, n)] ((FS.lookup_filter_keyNe fs p q hpq).trans hl)]
    have hne : ¬((p, n).1 = q) := fun hc => hpq hc.symm
    rw [FS.lookup, if_neg hne]
    rfl

theorem FS.lookup_mem {fs : FS} {p : FPath} {n : FNode}
    (h : FS.lookup fs p = some n) : (p, n) ∈ fs := by
  induction fs with
  | nil => simp [FS.lookup] at h
  | cons e fs ih =>
    by_cases he : e.1 = p
    · rw [FS.lookup, if_pos he] at h
      have : e = (p, n) := by
        cases e with
        | mk q m => simp only at he; simp at h; rw [he, h]
      rw [← this]; exact List.mem_cons_self e fs
    · rw [FS.lookup, if_neg he] at h
      exact List.mem_cons_of_mem e (ih h)

theorem subtree_append (a b : FS) (p : FPath) :
    subtree (a ++ b) p = subtree a p ++ subtree b p := by
  simp [subtree, List.filter_append]

theorem subtree_filter_key (fs : FS) (d p : FPath) (h : pathUnder d p = false) :
    subtree (fs.filter (fun e => !(e.1 == p))) d = subtree fs d := by
  rw [subtree, List.filter_filter, subtree]
  apply List.filter_congr
  intro e _
  by_cases hu : pathUnder d e.1 = true
  · rw [hu, Bool.true_and]
    have : ¬(e.1 = p) := by
      intro hc; rw [hc] at hu; rw [hu] at h; exact absurd h (by simp)
    simp [this]
  · rw [Bool.not_eq_true] at hu; rw [hu, Bool.false_and]

theorem subtree_set_ne (fs : FS) (d p : FPath) (n : FNode)
    (h : pathUnder d p = false) : subtree (FS.set fs p n) d = subtree fs d := by
  rw [FS.set, subtree_append, subtree_filter_key fs d p h]
  have : subtree [(p, n)] d = [] := by simp [subtree, h]
  rw [this, List.append_nil]

/-! Inversion lemmas for the filesystem operations. -/

theorem rmtree_ok {p : FPath} {fs g : FS} (h : rmtree p fs = Except.ok g) :
    FS.lookup fs p = some FNode.dir ∧ g = fs.filter (fun e => !(pathUnder p e.1)) := by
  unfold rmtree at h
  cases hl : FS.lookup fs p with
  | none => rw [hl] at h; exact absurd h (by simp)
  | some n =>
    cases n with
    | dir =>
      rw [hl] at h
      simp only [Except.ok.injEq] at h
      exact ⟨rfl, h.symm⟩
    | file s => rw [hl] at h; exact absurd h (by simp)

theorem osRemove_ok {p : FPath} {fs g : FS} (h : osRemove p fs = Except.ok g) :
    (∃ s, FS.lookup fs p = some (FNode.file s)) ∧
    g = fs.filter (fun e => !(e.1 == p)) := by
  unfold osRemove at h
  cases hl : FS.lookup fs p with
  | none => rw [hl] at h; exact absurd h (by simp)
  | some n =>
    cases n with
    | dir => rw [hl] at h; exact absurd h (by simp)
    | file s =>
      rw [hl] at h
      simp only [Except.ok.injEq] at h
      exact ⟨⟨s, rfl⟩, h.symm⟩

theorem copytree_ok {src dst : FPath} {fs g : FS} (h : copytree src dst fs = Except.ok g) :
    FS.lookup fs src = some FNode.dir ∧ FS.lookup fs dst = none ∧
    g = fs ++ (subtree fs src).map (fun e => (dst ++ e.1.drop src.length, e.2)) := by
  unfold copytree at h
  cases hl : FS.lookup fs src with
  | none => rw [hl] at h; exact absurd h (by simp)
  | some n =>
    cases n with
    | file s => rw [hl] at h; exact absurd h (by simp)
    | dir =>
      rw [hl] at h
      cases hd : FS.lookup fs dst with
      | some m => rw [hd] at h; exact absurd h (by simp)
      | none =>
        rw [hd] at h
        simp only [Option.isSome_none, Bool.false_eq_true, if_false, Except.ok.injEq] at h
        exact ⟨rfl, rfl, h.symm⟩

theorem openW_ok {p : FPath} {fs g : FS} (h : openW p fs = Except.ok g) :
    FS.isdir fs (parent p) = true ∧ g = FS.set fs p (FNode.file "") := by
  unfold openW at h
  cases hp : FS.isdir fs (parent p) with
  | false => rw [hp] at h; exact absurd h (by simp)
  | true =>
    rw [hp] at h
    simp only [if_true] at h
    cases hl : FS.lookup fs p with
    | none =>
      rw [hl] at h
      simp only [Except.ok.injEq] at h
      exact ⟨rfl, h.symm⟩
    | some n =>
      cases n with
      | dir => rw [hl] at h; exact absurd h (by simp)
      | file s =>
        rw [hl] at h
        simp only [Except.ok.injEq] at h
        exact ⟨rfl, h.symm⟩

theorem parent_append (p : FPath) (a : String) : parent (p ++ [a]) = p := by
  simp [parent]

/-- When _copy_playbooks returns True, the copy succeeded and the final
filesystem is the copy result with zero, one or two writes of the secret
file path on top (none when no vault password was requested; the
open-for-write plus the write of the environment value otherwise). -/
theorem copyPlaybooks_ok_true {cfg : Config} {mount : FPath} {env : Option String}
    {fs fs1 : FS} {op : List FPath}
    (h : copyPlaybooks cfg mount env fs = Except.ok (true, fs1, op)) :
    ∃ g, copytree cfg.playbooks_path_source (mount ++ cfg.playbooks_path_dest) fs =
        Except.ok g ∧
      (fs1 = g ∨
       (∃ n, fs1 = FS.set g (mount ++ ["tmp", "vault_password"]) n) ∨
       (∃ n m, fs1 = FS.set (FS.set g (mount ++ ["tmp", "vault_password"]) n)
          (mount ++ ["tmp", "vault_password"]) m)) := by
  simp only [copyPlaybooks] at h
  cases hd : FS.isdir fs (mount ++ cfg.playbooks_path_dest) with
  | true =>
    rw [hd] at h
    simp only [if_true] at h
    exact absurd h (by simp)
  | false =>
    rw [hd] at h
    simp only [Bool.false_eq_true, if_false] at h
    cases hc : copytree cfg.playbooks_path_source (mount ++ cfg.playbooks_path_dest) fs with
    | error e => rw [hc] at h; exact absurd h (by simp)
    | ok g =>
      rw [hc] at h
      refine ⟨g, rfl, ?_⟩
      cases hv : cfg.vault_password with
      | false =>
        rw [hv] at h
        simp only [Bool.false_eq_true, if_false, Except.ok.injEq, Prod.mk.injEq] at h
        exact Or.inl h.2.1.symm
      | true =>
        rw [hv] at h
        simp only [if_true] at h
        cases ho : openW (mount ++ ["tmp", "vault_password"]) g with
        | error e => rw [ho] at h; exact absurd h (by simp)
        | ok g2 =>
          rw [ho] at h
          obtain ⟨hg, hset⟩ := openW_ok ho
          cases env with
          | some pwd =>
            simp only [Except.ok.injEq, Prod.mk.injEq] at h
            exact Or.inr (Or.inr ⟨FNode.file "", FNode.file pwd, by rw [← h.2.1, hset]⟩)
          | none =>
            simp only [Except.ok.injEq, Prod.mk.injEq] at h
            exact Or.inr (Or.inl ⟨FNode.file "", by rw [← h.2.1, hset]⟩)

/-! Claim theorems. -/

/-- C1: the claim says the secret written to mountpoint/tmp/vault_password
during staging is deleted by cleanup.  The code instead removes the raw
host path /tmp/vault_password, so on a run with mount point /mnt where the
host file happens to exist, cleanup succeeds, the host file is removed,
and the staged credential /mnt/tmp/vault_password still holds the secret
after cleanup: the credential outlives the run. -/
theorem secret_survives_cleanup_bug :
    Except.map (fun fs2 => (FS.lookup fs2 ["mnt", "tmp", "vault_password"],
        FS.lookup fs2 ["tmp", "vault_password"]))
      (Except.bind (copyPlaybooks c1cfg ["mnt"] (some "pw") c1fs)
        (fun r => ansibleCleanup c1cfg r.2.1))
    = Except.ok (some (FNode.file "pw"), none) := by decide

/-- C2: the claim says that with keep_playbooks false the staged playbooks
directory under the target mount no longer exists after cleanup.  The code
calls rmtree on the raw playbooks_path_dest option without the mount
prefix, so cleanup removes host /srv/prov and the staged tree
/mnt/srv/prov (directory and copied playbook) survives cleanup. -/
theorem staged_playbooks_survive_cleanup_bug :
    Except.map (fun fs2 => (FS.lookup fs2 ["mnt", "srv", "prov"],
        FS.lookup fs2 ["mnt", "srv", "prov", "site.yml"],
        FS.lookup fs2 ["srv", "prov"]))
      (Except.bind (copyPlaybooks baseCfg ["mnt"] none c2fs)
        (fun r => ansibleCleanup baseCfg r.2.1))
    = Except.ok (some FNode.dir, some (FNode.file "- hosts"), none) := by decide

/-- C3: when the staging destination under the target mount already exists
as a directory, _copy_playbooks returns False and performs no filesystem
mutation: the returned filesystem is the input one, so neither the
playbook copy nor the secret-file write happened. -/
theorem copyPlaybooks_destExists_noMutation (cfg : Config) (mount : FPath)
    (env : Option String) (fs : FS)
    (h : FS.isdir fs (mount ++ cfg.playbooks_path_dest) = true) :
    copyPlaybooks cfg mount env fs = Except.ok (false, fs, []) := by
  simp [copyPlaybooks, h]

theorem copyPlaybooks_destExists_noMutation_witness :
    copyPlaybooks baseCfg ["mnt"] none c3fs = Except.ok (false, c3fs, []) :=
  copyPlaybooks_destExists_noMutation baseCfg ["mnt"] none c3fs (by decide)

/-- C4: the built command line equals the template of the specification
for all inputs, the vault option appends exactly the vault-password-file
suffix, and the concrete instance of the claim holds: inventory
/etc/ansible/hosts, empty extra vars, playbook dir /srv/prov, playbook
site.yml, no vault. -/
theorem run_ansible_playbook_commandLine :
    (∀ inventory extra_vars playbook_dir playbook vault,
      run_ansible_playbook inventory extra_vars playbook_dir playbook vault =
        specCommandLine inventory extra_vars playbook_dir playbook vault) ∧
    (∀ inventory extra_vars playbook_dir playbook,
      run_ansible_playbook inventory extra_vars playbook_dir playbook true =
        run_ansible_playbook inventory extra_vars playbook_dir playbook false ++
          " --vault-password-file /tmp/vault_password") ∧
    run_ansible_playbook "/etc/ansible/hosts" "" "/srv/prov" "site.yml" false =
      "ansible-playbook -c local -i /etc/ansible/hosts -e " ++ squote ++ "ami=True " ++
        squote ++ " /srv/prov/site.yml" := by
  refine ⟨?_, ?_, ?_⟩
  · intro inventory extra_vars playbook_dir playbook vault
    cases vault <;>
      simp [run_ansible_playbook, specCommandLine, String.append_empty]
  · intro inventory extra_vars playbook_dir playbook
    rfl
  · decide

/-- C5: refutation of metadata-before-cleanup.  On a concrete successful
run of _store_package_metadata the event trace puts the cleanup strictly
before the metadata recording, so the recorded event does not precede the
cleanup event. -/
theorem metadata_not_recorded_before_cleanup :
    Except.map (fun r => recordedBeforeCleanup r.2.2)
      (storePackageMetadata c5cfg "pkg" []) = Except.ok false := by decide

/-- C5 amended: in every run of _store_package_metadata that completes,
cleanup happens first and the metadata (package argument as name,
appversion, empty release, extravars) is recorded strictly after it. -/
theorem storeMetadata_cleanup_precedes_record (cfg : Config) (arg : String)
    (fs fs1 : FS) (md : Metadata) (t : List Event)
    (h : storePackageMetadata cfg arg fs = Except.ok (fs1, md, t)) :
    t = [Event.cleanedUp, Event.recorded] ∧ recordedBeforeCleanup t = false ∧
    md = { name := arg, version := cfg.appversion, release := "",
           extra_vars := cfg.extravars } := by
  unfold storePackageMetadata at h
  cases hc : ansibleCleanup cfg fs with
  | error e => rw [hc] at h; exact absurd h (by simp)
  | ok g =>
    rw [hc] at h
    simp only [Except.ok.injEq, Prod.mk.injEq] at h
    refine ⟨h.2.2.symm, ?_, h.2.1.symm⟩
    rw [← h.2.2]
    rfl

theorem storeMetadata_cleanup_precedes_record_witness :
    [Event.cleanedUp, Event.recorded] = [Event.cleanedUp, Event.recorded] ∧
    recordedBeforeCleanup [Event.cleanedUp, Event.recorded] = false ∧
    ({ name := "pkg", version := "", release := "", extra_vars := "" } : Metadata) =
      { name := "pkg", version := c5cfg.appversion, release := "",
        extra_vars := c5cfg.extravars } :=
  storeMetadata_cleanup_precedes_record c5cfg "pkg" [] []
    { name := "pkg", version := "", release := "", extra_vars := "" }
    [Event.cleanedUp, Event.recorded] (by decide)

/-- C6: the claim says a missing playbook source makes staging fail with
SourceMissing before the copy is attempted.  The code only logs the
missing source and proceeds to shutil.copytree, which raises
FileNotFoundError: on a concrete run with the source absent and the
destination clean, _copy_playbooks ends in the uncaught copytree exception
instead of returning a failure value before the copy. -/
theorem copyPlaybooks_missingSource_attempts_copy :
    copyPlaybooks baseCfg ["mnt"] none c6fs = Except.error PyErr.notFound := by decide

/-- C7: refutation of idempotence.  On a concrete filesystem where the
destination exists, the first cleanup call succeeds and the second call,
immediately after, raises FileNotFoundError from rmtree instead of being a
no-op. -/
theorem cleanup_second_call_raises :
    Except.map (fun fs1 => ansibleCleanup baseCfg fs1) (ansibleCleanup baseCfg c7fs)
    = Except.ok (Except.error PyErr.notFound) := by decide

/-- C7 amended: unstage is not idempotent.  For every configuration with
keep_playbooks false and no vault password, after a successful cleanup the
destination is gone and an immediately repeated cleanup raises
FileNotFoundError from rmtree rather than succeeding without change. -/
theorem cleanup_unstage_not_idempotent (cfg : Config) (fs fs1 : FS)
    (hk : cfg.keep_playbooks = false) (hv : cfg.vault_password = false)
    (h : ansibleCleanup cfg fs = Except.ok fs1) :
    ansibleCleanup cfg fs1 = Except.error PyErr.notFound := by
  simp only [ansibleCleanup, hk, Bool.false_eq_true, if_false] at h
  cases hr : rmtree cfg.playbooks_path_dest fs with
  | error e => rw [hr] at h; exact absurd h (by simp)
  | ok g =>
    rw [hr] at h
    simp only [hv, Bool.false_eq_true, if_false, Except.ok.injEq] at h
    obtain ⟨hl, hg⟩ := rmtree_ok hr
    have hnone : FS.lookup fs1 cfg.playbooks_path_dest = none := by
      rw [← h, hg]
      exact FS.lookup_filter_none fs _ _ (fun n => by rw [pathUnder_refl]; rfl)
    have hrm : rmtree cfg.playbooks_path_dest fs1 = Except.error PyErr.notFound := by
      unfold rmtree
      rw [hnone]
    simp only [ansibleCleanup, hk, Bool.false_eq_true, if_false, hrm]

theorem cleanup_unstage_not_idempotent_witness :
    ansibleCleanup baseCfg c7fs1 = Except.error PyErr.notFound :=
  cleanup_unstage_not_idempotent baseCfg c7fs c7fs1 (by decide) (by decide) (by decide)

/-- C8: with keep_playbooks true, cleanup does not remove the staged
playbooks directory: for every run whose staging returned True into an
initially clean destination area and whose cleanup completed, the subtree
staged under the target mount survives cleanup, is non-empty, and
relabelling it back onto the source path gives back exactly the source
subtree (byte-identical tree).  The two pathUnder hypotheses say the
destination area is distinct from the secret-file paths the vault handling
may touch. -/
theorem keepPlaybooks_staged_tree_preserved (cfg : Config) (mount : FPath)
    (env : Option String) (fs fs1 fs2 : FS) (op : List FPath)
    (hk : cfg.keep_playbooks = true)
    (hcopy : copyPlaybooks cfg mount env fs = Except.ok (true, fs1, op))
    (hclean0 : subtree fs (mount ++ cfg.playbooks_path_dest) = [])
    (hs1 : pathUnder (mount ++ cfg.playbooks_path_dest)
      (mount ++ ["tmp", "vault_password"]) = false)
    (hs2 : pathUnder (mount ++ cfg.playbooks_path_dest) ["tmp", "vault_password"] = false)
    (hcl : ansibleCleanup cfg fs1 = Except.ok fs2) :
    (subtree fs2 (mount ++ cfg.playbooks_path_dest)).map
        (fun e => (cfg.playbooks_path_source ++
          e.1.drop (mount ++ cfg.playbooks_path_dest).length, e.2)) =
      subtree fs cfg.playbooks_path_source ∧
    subtree fs2 (mount ++ cfg.playbooks_path_dest) ≠ [] := by
  obtain ⟨g, hct, hforms⟩ := copyPlaybooks_ok_true hcopy
  obtain ⟨hsrc, hdst, hgeq⟩ := copytree_ok hct
  have hmapped : subtree g (mount ++ cfg.playbooks_path_dest) =
      (subtree fs cfg.playbooks_path_source).map
        (fun e => ((mount ++ cfg.playbooks_path_dest) ++
          e.1.drop cfg.playbooks_path_source.length, e.2)) := by
    rw [hgeq, subtree_append, hclean0, List.nil_append]
    apply List.filter_eq_self.mpr
    intro e he
    obtain ⟨x, hx, hxe⟩ := List.mem_map.mp he
    rw [← hxe]
    exact pathUnder_append (mount ++ cfg.playbooks_path_dest) _
  have hfs1 : subtree fs1 (mount ++ cfg.playbooks_path_dest) =
      subtree g (mount ++ cfg.playbooks_path_dest) := by
    rcases hforms with h1 | ⟨n, h1⟩ | ⟨n, m, h1⟩
    · rw [h1]
    · rw [h1, subtree_set_ne _ _ _ _ hs1]
    · rw [h1, subtree_set_ne _ _ _ _ hs1, subtree_set_ne _ _ _ _ hs1]
  have hfs2 : subtree fs2 (mount ++ cfg.playbooks_path_dest) =
      subtree fs1 (mount ++ cfg.playbooks_path_dest) := by
    simp only [ansibleCleanup, hk, if_true] at hcl
    cases hv : cfg.vault_password with
    | false =>
      rw [hv] at hcl
      simp only [Bool.false_eq_true, if_false, Except.ok.injEq] at hcl
      rw [← hcl]
    | true =>
      rw [hv] at hcl
      simp only [if_true] at hcl
      obtain ⟨hfile, hfilt⟩ := osRemove_ok hcl
      rw [hfilt, subtree_filter_key _ _ _ hs2]
  have hmapback : ((subtree fs cfg.playbooks_path_source).map
      (fun e => ((mount ++ cfg.playbooks_path_dest) ++
        e.1.drop cfg.playbooks_path_source.length, e.2))).map
      (fun e => (cfg.playbooks_path_source ++
        e.1.drop (mount ++ cfg.playbooks_path_dest).length, e.2)) =
      subtree fs cfg.playbooks_path_source := by
    rw [List.map_map]
    have hid : ∀ e ∈ subtree fs cfg.playbooks_path_source,
        ((fun e => (cfg.playbooks_path_source ++
            e.1.drop (mount ++ cfg.playbooks_path_dest).length, e.2)) ∘
         (fun e => ((mount ++ cfg.playbooks_path_dest) ++
            e.1.drop cfg.playbooks_path_source.length, e.2))) e = id e := by
      intro e he
      have hu : pathUnder cfg.playbooks_path_source e.1 = true :=
        (List.mem_filter.mp he).2
      obtain ⟨t, ht⟩ := (pathUnder_iff _ _).mp hu
      cases e with
      | mk q n =>
        simp only at ht
        subst ht
        simp [List.drop_left]
    rw [List.map_congr_left hid, List.map_id]
  have hne : subtree fs cfg.playbooks_path_source ≠ [] := by
    intro hempty
    have hmem : (cfg.playbooks_path_source, FNode.dir) ∈
        subtree fs cfg.playbooks_path_source :=
      List.mem_filter.mpr ⟨FS.lookup_mem hsrc, pathUnder_refl _⟩
    rw [hempty] at hmem
    exact absurd hmem (List.not_mem_nil _)
  constructor
  · rw [hfs2, hfs1, hmapped]
    exact hmapback
  · rw [hfs2, hfs1, hmapped]
    intro hcontra
    exact hne (List.map_eq_nil_iff.mp hcontra)

theorem keepPlaybooks_staged_tree_preserved_witness :
    (subtree c8fs1 (["m"] ++ c8cfg.playbooks_path_dest)).map
        (fun e => (c8cfg.playbooks_path_source ++
          e.1.drop (["m"] ++ c8cfg.playbooks_path_dest).length, e.2)) =
      subtree c8fs c8cfg.playbooks_path_source ∧
    subtree c8fs1 (["m"] ++ c8cfg.playbooks_path_dest) ≠ [] :=
  keepPlaybooks_staged_tree_preserved c8cfg ["m"] none c8fs c8fs1 c8fs1 []
    (by decide) (by decide) (by decide) (by decide) (by decide) (by decide)

/-- C9: with a vault password requested, staging proceeding, and the
VAULT_PWD environment value absent, _copy_playbooks still returns True as
if staging fully succeeded, the secret file exists empty under the target
mount (it was opened for writing before the environment lookup), and its
handle is the one opened file never closed. -/
theorem copyPlaybooks_vaultEnvMissing (cfg : Config) (mount : FPath) (fs fs1 : FS)
    (op : List FPath) (hv : cfg.vault_password = true)
    (h : copyPlaybooks cfg mount none fs = Except.ok (true, fs1, op)) :
    FS.lookup fs1 (mount ++ ["tmp", "vault_password"]) = some (FNode.file "") ∧
    op = [mount ++ ["tmp", "vault_password"]] := by
  simp only [copyPlaybooks, hv, if_true] at h
  cases hd : FS.isdir fs (mount ++ cfg.playbooks_path_dest) with
  | true =>
    rw [hd] at h
    simp only [if_true] at h
    exact absurd h (by simp)
  | false =>
    rw [hd] at h
    simp only [Bool.false_eq_true, if_false] at h
    cases hc : copytree cfg.playbooks_path_source (mount ++ cfg.playbooks_path_dest) fs with
    | error e => rw [hc] at h; exact absurd h (by simp)
    | ok g =>
      simp only [hc] at h
      cases ho : openW (mount ++ ["tmp", "vault_password"]) g with
      | error e => rw [ho] at h; exact absurd h (by simp)
      | ok g2 =>
        rw [ho] at h
        simp only [Except.ok.injEq, Prod.mk.injEq] at h
        obtain ⟨hdir, hset⟩ := openW_ok ho
        constructor
        · rw [← h.2.1, hset]
          exact FS.lookup_set_self g (mount ++ ["tmp", "vault_password"]) (FNode.file "")
        · exact h.2.2.symm

theorem copyPlaybooks_vaultEnvMissing_witness :
    FS.lookup c9fs1 (["m"] ++ ["tmp", "vault_password"]) = some (FNode.file "") ∧
    [["m", "tmp", "vault_password"]] = [["m"] ++ ["tmp", "vault_password"]] :=
  copyPlaybooks_vaultEnvMissing c9cfg ["m"] c9fs c9fs1 [["m", "tmp", "vault_password"]]
    (by decide) (by decide)

/-- C10: _write_local_inventory always records the inventory path
(inventory_file_path option, default /etc/ansible, joined with the
inventory_file option) on the context before any filesystem call, so the
recorded path is mutated even when directory creation or the file write
fails; and on success it returns True with the directory existing and the
file holding exactly inventory_file_content. -/
theorem writeLocalInventory_spec (cfg : Config) (fs : FS) :
    (writeLocalInventory cfg fs).1 =
      cfg.inventory_file_path.getD ["etc", "ansible"] ++ [cfg.inventory_file] ∧
    ∀ fs1 b, (writeLocalInventory cfg fs).2 = Except.ok (fs1, b) →
      b = true ∧
      FS.isdir fs1 (cfg.inventory_file_path.getD ["etc", "ansible"]) = true ∧
      FS.lookup fs1 (cfg.inventory_file_path.getD ["etc", "ansible"] ++
        [cfg.inventory_file]) = some (FNode.file cfg.inventory_file_content) := by
  constructor
  · rfl
  · intro fs1 b h
    simp only [writeLocalInventory] at h
    cases hstep : (if FS.isdir fs (cfg.inventory_file_path.getD ["etc", "ansible"]) then
        Except.ok fs else makedirs (cfg.inventory_file_path.getD ["etc", "ansible"]) fs) with
    | error e => rw [hstep] at h; exact absurd h (by simp)
    | ok g =>
      simp only [hstep] at h
      cases ho : openW (cfg.inventory_file_path.getD ["etc", "ansible"] ++
          [cfg.inventory_file]) g with
      | error e => rw [ho] at h; exact absurd h (by simp)
      | ok g2 =>
        rw [ho] at h
        simp only [Except.ok.injEq, Prod.mk.injEq] at h
        obtain ⟨hdir, hg2⟩ := openW_ok ho
        have hpar : FS.isdir g (cfg.inventory_file_path.getD ["etc", "ansible"]) = true := by
          rw [← parent_append (cfg.inventory_file_path.getD ["etc", "ansible"])
            cfg.inventory_file]
          exact hdir
        have hne : ¬(cfg.inventory_file_path.getD ["etc", "ansible"] =
            cfg.inventory_file_path.getD ["etc", "ansible"] ++ [cfg.inventory_file]) := by
          simp
        refine ⟨h.2.symm, ?_, ?_⟩
        · rw [← h.1, hg2]
          unfold FS.isdir at hpar ⊢
          rw [FS.lookup_set_ne _ _ _ _ hne, FS.lookup_set_ne _ _ _ _ hne]
          exact hpar
        · rw [← h.1]
          exact FS.lookup_set_self g2 _ _

theorem writeLocalInventory_spec_witness :
    (writeLocalInventory baseCfg c10fs).1 =
      baseCfg.inventory_file_path.getD ["etc", "ansible"] ++ [baseCfg.inventory_file] ∧
    (writeLocalInventory baseCfg c10fs).2 = Except.error PyErr.notADir :=
  ⟨(writeLocalInventory_spec baseCfg c10fs).1, by decide⟩

end Ansible
